import Mathlib

/-!
# Kanban Lite — shallow embedding and verification

A shallow embedding of the concurrent board store of the Kanban Lite server
(`main.go`): the data model (boards / lists / cards), the four mutation
operations (`createBoard`, `createList`, `createCard`, `moveCard`), the JSON
snapshot persistence (`save` / `load`), and the per-board event fan-out
(`broadcast` / `subscribe`).

Modelling conventions:
* Go `int64` and `int` are modelled as `Int` (no arithmetic in the claims can
  overflow 64 bits).
* A Go map is modelled as an association list with first-match lookup and
  first-match replacement; Go's pointer-based in-place mutation of a board or
  list becomes functional replacement of the found entry.
* Identifiers that Go draws from the clock (`time.Now().UnixNano()`, plus a
  random jitter for cards) are injected as explicit parameters.
* A `*time.Time` due date is modelled as `Option Int` (the timestamp value);
  its JSON form is a number standing for the RFC3339 rendering.
* HTTP status / body pairs are modelled as `Except OpError`: 400 "title
  required" / "bad request" is `invalidInput`, 404 is `notFound`.
* Side effects of a handler are made explicit in its result: the new board
  map, whether `save()` was invoked, and the list of broadcast notifications.
-/

namespace Kanban

/-- Go struct `Card` (main.go:37-43). -/
structure Card where
  id : Int
  title : String
  description : String
  position : Int
  due : Option Int
deriving Repr, DecidableEq

/-- Go struct `List` (main.go:30-35); named `KList` because `List` is taken. -/
structure KList where
  id : Int
  title : String
  position : Int
  cards : List Card
deriving Repr, DecidableEq

/-- Go struct `Board` (main.go:23-28). -/
structure Board where
  id : Int
  title : String
  lists : List KList
  events : Int
deriving Repr, DecidableEq

/-- The `boards map[int64]*Board` field of `Store` (main.go:50). -/
abbrev Boards := List (Int × Board)

/-- Error outcomes of the handlers (main.go writeJSON 400 / 404). -/
inductive OpError where
  | invalidInput
  | notFound
deriving Repr, DecidableEq

/-- A broadcast notification (main.go:96-101, 206, 261, 338). -/
inductive Notif where
  | listCreated (l : KList)
  | cardCreated (c : Card)
  | cardMoved (cardId toListId toPos : Int)
deriving Repr, DecidableEq

deriving instance DecidableEq for Except

/-- Result of running one handler: the board map afterwards, the HTTP-level
outcome, whether `save()` ran, and the notifications broadcast. -/
structure OpOut where
  boards : Boards
  result : Except OpError Unit
  saved : Bool
  broadcasts : List Notif
deriving Repr, DecidableEq

/-- `s.store.boards[boardID]` — Go map lookup (nil when absent). -/
def lookupBoard : Boards → Int → Option Board
  | [], _ => none
  | (k, b) :: rest, i => if k = i then some b else lookupBoard rest i

/-- Writing through the `*Board` pointer obtained from the map: replace the
(first) binding of the key. -/
def updateBoard : Boards → Int → Board → Boards
  | [], _, _ => []
  | (k, b) :: rest, i, b' =>
    if k = i then (k, b') :: rest else (k, b) :: updateBoard rest i b'

/-- `s.store.boards[b.ID] = b` — Go map assignment (overwrite or add). -/
def insertBoard (bs : Boards) (i : Int) (b : Board) : Boards :=
  if (lookupBoard bs i).isSome then updateBoard bs i b else bs ++ [(i, b)]

/-- The `for i := range b.Lists { if b.Lists[i].ID == id ... }` search loops
(main.go:244-249, 286-291, 316-321): first list with the given id. -/
def findList : List KList → Int → Option KList
  | [], _ => none
  | l :: rest, i => if l.id = i then some l else findList rest i

/-- Writing through the `*List` pointer into `b.Lists`: replace the first
list whose id matches. -/
def setList : List KList → Int → KList → List KList
  | [], _, _ => []
  | l :: rest, i, l' =>
    if l.id = i then l' :: rest else l :: setList rest i l'

/-- The card search loop of `moveCard` (main.go:299-305) fused with the
removal `append(from.Cards[:idx], from.Cards[idx+1:]...)` (main.go:310):
the first card with the given id together with the sequence without it. -/
def removeCard : List Card → Int → Option (Card × List Card)
  | [], _ => none
  | c :: rest, i =>
    if c.id = i then some (c, rest)
    else match removeCard rest i with
      | some (c', rest') => some (c', c :: rest')
      | none => none

/-- The renumbering loops `for i := range cards { cards[i].Position = i }`
(main.go:311-313, 332-334), started at `n`. -/
def renumberFrom (n : Nat) : List Card → List Card
  | [] => []
  | c :: rest => { c with position := (n : Int) } :: renumberFrom (n + 1) rest

def renumber (cs : List Card) : List Card := renumberFrom 0 cs

/-- The insertion `append(to.Cards, Card{}); copy(...); to.Cards[pos] = c`
(main.go:329-331): insert `c` at index `n` (Go only reaches `n ≤ length`). -/
def insertAt : Nat → Card → List Card → List Card
  | 0, c, cs => c :: cs
  | _ + 1, c, [] => [c]
  | n + 1, c, x :: xs => x :: insertAt n c xs

/-- The clamp `if req.ToPos < 0 || req.ToPos > len(to.Cards) { req.ToPos =
len(to.Cards) }` (main.go:326-328). -/
def clampPos (p : Int) (n : Nat) : Nat :=
  if p < 0 ∨ p > (n : Int) then n else p.toNat

/-- Decoded body of `createBoard` / `createList`: the title. Transport
decoding itself is out of scope; a decode error is folded into an empty
title, both produce the same 400. -/
structure TitleReq where
  title : String
deriving Repr, DecidableEq

/-- Decoded body of `createCard` (main.go:227-230). -/
structure CardReq where
  title : String
  description : String
  due : Option Int
deriving Repr, DecidableEq

/-- Decoded body of `moveCard` (main.go:268-271). -/
structure MoveReq where
  cardID : Int
  fromListID : Int
  toListID : Int
  toPos : Int
deriving Repr, DecidableEq

/-- Handler `createBoard` (main.go:153-168). `newID` injects
`time.Now().UnixNano()`. Note: no broadcast on this path. -/
def createBoard (bs : Boards) (newID : Int) (req : TitleReq) : OpOut :=
  if req.title = "" then ⟨bs, .error .invalidInput, false, []⟩
  else
    let b : Board := { id := newID, title := req.title, lists := [], events := 0 }
    ⟨insertBoard bs newID b, .ok (), true, []⟩

/-- Handler `createList` (main.go:182-208). -/
def createList (bs : Boards) (boardID newID : Int) (req : TitleReq) : OpOut :=
  if req.title = "" then ⟨bs, .error .invalidInput, false, []⟩
  else
    match lookupBoard bs boardID with
    | none => ⟨bs, .error .notFound, false, []⟩
    | some b =>
      let pos := b.lists.length
      let lst : KList := { id := newID, title := req.title, position := (pos : Int), cards := [] }
      let b' : Board := { b with lists := b.lists ++ [lst], events := b.events + 1 }
      ⟨updateBoard bs boardID b', .ok (), true, [.listCreated lst]⟩

/-- Handler `createCard` (main.go:224-263). `newID` injects
`time.Now().UnixNano() + rand.Intn(1000)`. -/
def createCard (bs : Boards) (boardID listID newID : Int) (req : CardReq) : OpOut :=
  if req.title = "" then ⟨bs, .error .invalidInput, false, []⟩
  else
    match lookupBoard bs boardID with
    | none => ⟨bs, .error .notFound, false, []⟩
    | some b =>
      match findList b.lists listID with
      | none => ⟨bs, .error .notFound, false, []⟩
      | some target =>
        let card : Card := { id := newID, title := req.title,
                             description := req.description,
                             position := (target.cards.length : Int), due := req.due }
        let target' := { target with cards := target.cards ++ [card] }
        let b' : Board := { b with
          lists := setList b.lists listID target',
          events := b.events + 1 }
        ⟨updateBoard bs boardID b', .ok (), true, [.cardCreated card]⟩

/-- Handler `moveCard` (main.go:266-340), including its defect: the card is
removed from the source list (and the source renumbered) before the
destination list is resolved, so a missing destination leaves the store
mutated (main.go:310-324). -/
def moveCard (bs : Boards) (boardID : Int) (req : MoveReq) : OpOut :=
  match lookupBoard bs boardID with
  | none => ⟨bs, .error .notFound, false, []⟩
  | some b =>
    match findList b.lists req.fromListID with
    | none => ⟨bs, .error .notFound, false, []⟩
    | some src =>
      match removeCard src.cards req.cardID with
      | none => ⟨bs, .error .notFound, false, []⟩
      | some (c, rest) =>
        let src' := { src with cards := renumber rest }
        let b1 : Board := { b with lists := setList b.lists req.fromListID src' }
        match findList b1.lists req.toListID with
        | none => ⟨updateBoard bs boardID b1, .error .notFound, false, []⟩
        | some dst =>
          let pos := clampPos req.toPos dst.cards.length
          let dst' := { dst with cards := renumber (insertAt pos c dst.cards) }
          let b2 : Board := { b1 with
            lists := setList b1.lists req.toListID dst',
            events := b1.events + 1 }
          ⟨updateBoard bs boardID b2, .ok (), true,
            [.cardMoved c.id dst.id (pos : Int)]⟩

/-! ## Operations bundled as a step language (for reachability statements) -/

/-- One decoded mutation request, with the injected identifier(s). -/
inductive Op where
  | createBoard (newID : Int) (req : TitleReq)
  | createList (boardID newID : Int) (req : TitleReq)
  | createCard (boardID listID newID : Int) (req : CardReq)
  | moveCard (boardID : Int) (req : MoveReq)
deriving Repr, DecidableEq

def applyOp (bs : Boards) : Op → OpOut
  | .createBoard newID req => createBoard bs newID req
  | .createList boardID newID req => createList bs boardID newID req
  | .createCard boardID listID newID req => createCard bs boardID listID newID req
  | .moveCard boardID req => moveCard bs boardID req

/-- The board a mutation addresses (for `createBoard`, the board it creates). -/
def opTarget : Op → Int
  | .createBoard newID _ => newID
  | .createList boardID _ _ => boardID
  | .createCard boardID _ _ _ => boardID
  | .moveCard boardID _ => boardID

/-- Identifier-uniqueness side condition (spec §4.1: `CreateBoard` "allocates
a Board with a unique identifier"): a fresh board id is not already a key. -/
def opFresh (bs : Boards) : Op → Bool
  | .createBoard newID _ => (lookupBoard bs newID).isNone
  | _ => true

/-- States reachable from the empty store by successful operations. -/
inductive Reachable : Boards → Prop where
  | empty : Reachable []
  | step (bs : Boards) (op : Op) (h : Reachable bs)
      (hok : (applyOp bs op).result = .ok ()) : Reachable (applyOp bs op).boards

/-! ## Position-contiguity checkers (spec §3 invariants) -/

/-- Cards carry positions `n, n+1, ...` in sequence order. -/
def cardPositionsFrom (n : Nat) : List Card → Bool
  | [] => true
  | c :: rest => (c.position == (n : Int)) && cardPositionsFrom (n + 1) rest

/-- Lists carry positions `n, n+1, ...` in sequence order, and each list's
cards are numbered `0..k-1`. -/
def listPositionsFrom (n : Nat) : List KList → Bool
  | [] => true
  | l :: rest =>
    (l.position == (n : Int)) && cardPositionsFrom 0 l.cards &&
      listPositionsFrom (n + 1) rest

def boardOk (b : Board) : Bool := listPositionsFrom 0 b.lists

def storeOk (bs : Boards) : Bool := bs.all fun p => boardOk p.2

/-- Event counter of a board, as observed through the map. -/
def eventsOf (bs : Boards) (i : Int) : Option Int := (lookupBoard bs i).map Board.events

/-- Effect of a successful operation on its target board's event counter:
`createBoard` initializes it to 0, every other mutation bumps it by one. -/
def okEventsSpec (bs : Boards) (op : Op) : Prop :=
  match op with
  | .createBoard newID _ => eventsOf (applyOp bs op).boards newID = some 0
  | _ => ∃ e, eventsOf bs (opTarget op) = some e ∧
      eventsOf (applyOp bs op).boards (opTarget op) = some (e + 1)

/-! ## Persistence: the JSON snapshot (`save` / `load`, main.go:59-93)

Go's `encoding/json` turns the `map[int64]*Board` into a JSON object whose
keys are the decimal renderings of the ids, and each struct into an object
keyed by its field tags. The byte-level rendering (indentation, key order)
is irrelevant to `load`, so the snapshot is modelled as a JSON tree. -/

inductive Json where
  | null : Json
  | str : String → Json
  | num : Int → Json
  | arr : List Json → Json
  | obj : List (String × Json) → Json
deriving Repr

/-- First field with the given name. -/
def getField : List (String × Json) → String → Option Json
  | [], _ => none
  | (k, v) :: rest, s => if k = s then some v else getField rest s

def digitChar (d : Nat) : Char := Char.ofNat (48 + d)

/-- Decimal rendering of a natural number (strconv, as used by
`encoding/json` for integer map keys). -/
def natKey (n : Nat) : String :=
  if n = 0 then "0" else String.mk (((Nat.digits 10 n).map digitChar).reverse)

def intKey (i : Int) : String :=
  if i < 0 then "-" ++ natKey i.natAbs else natKey i.natAbs

def digitVal (c : Char) : Option Nat :=
  if 48 ≤ c.toNat ∧ c.toNat ≤ 57 then some (c.toNat - 48) else none

def parseDigits : List Char → Option (List Nat)
  | [] => some []
  | c :: rest =>
    match digitVal c, parseDigits rest with
    | some d, some ds => some (d :: ds)
    | _, _ => none

/-- Digits-only parse (big-endian digit list; empty input is an error). -/
def parseNatChars (cs : List Char) : Option Nat :=
  if cs.isEmpty then none
  else (parseDigits cs).map fun ds => Nat.ofDigits 10 ds.reverse

/-- strconv-style parse of a decimal integer key (optional sign). -/
def parseKey (s : String) : Option Int :=
  match s.data with
  | [] => none
  | c :: rest =>
    if c = Char.ofNat 45 then (parseNatChars rest).map fun n => -(n : Int)
    else if c = Char.ofNat 43 then (parseNatChars rest).map fun n => (n : Int)
    else (parseNatChars (c :: rest)).map fun n => (n : Int)

/-- JSON form of a `Card` (struct tags main.go:37-43; `due,omitempty` drops a
nil due pointer). -/
def encCard (c : Card) : Json :=
  .obj ([("id", .num c.id), ("title", .str c.title),
         ("description", .str c.description), ("position", .num c.position)] ++
    match c.due with
    | none => []
    | some t => [("due", .num t)])

def encKList (l : KList) : Json :=
  .obj [("id", .num l.id), ("title", .str l.title), ("position", .num l.position),
        ("cards", .arr (l.cards.map encCard))]

def encBoard (b : Board) : Json :=
  .obj [("id", .num b.id), ("title", .str b.title),
        ("lists", .arr (b.lists.map encKList)), ("events", .num b.events)]

/-- JSON form of the whole board map (`save`, main.go:74-93): an object keyed
by the decimal board ids. -/
def encBoards (bs : Boards) : Json :=
  .obj (bs.map fun p => (intKey p.1, encBoard p.2))

/-- Go unmarshal of a string field: absent or null leaves the zero value,
a JSON string is taken, anything else is a type error. -/
def decStrField (fs : List (String × Json)) (k : String) : Option String :=
  match getField fs k with
  | none => some ""
  | some .null => some ""
  | some (.str s) => some s
  | some _ => none

def decIntField (fs : List (String × Json)) (k : String) : Option Int :=
  match getField fs k with
  | none => some 0
  | some .null => some 0
  | some (.num n) => some n
  | some _ => none

def decDueField (fs : List (String × Json)) : Option (Option Int) :=
  match getField fs "due" with
  | none => some none
  | some .null => some none
  | some (.num t) => some (some t)
  | some _ => none

def decCard : Json → Option Card
  | .null => some { id := 0, title := "", description := "", position := 0, due := none }
  | .obj fs =>
    match decIntField fs "id", decStrField fs "title", decStrField fs "description",
          decIntField fs "position", decDueField fs with
    | some i, some t, some d, some p, some du =>
      some { id := i, title := t, description := d, position := p, due := du }
    | _, _, _, _, _ => none
  | _ => none

def decCards : List Json → Option (List Card)
  | [] => some []
  | j :: rest =>
    match decCard j, decCards rest with
    | some c, some cs => some (c :: cs)
    | _, _ => none

def decCardsField (fs : List (String × Json)) : Option (List Card) :=
  match getField fs "cards" with
  | none => some []
  | some .null => some []
  | some (.arr js) => decCards js
  | some _ => none

def decKList : Json → Option KList
  | .null => some { id := 0, title := "", position := 0, cards := [] }
  | .obj fs =>
    match decIntField fs "id", decStrField fs "title", decIntField fs "position",
          decCardsField fs with
    | some i, some t, some p, some cs => some { id := i, title := t, position := p, cards := cs }
    | _, _, _, _ => none
  | _ => none

def decKLists : List Json → Option (List KList)
  | [] => some []
  | j :: rest =>
    match decKList j, decKLists rest with
    | some l, some ls => some (l :: ls)
    | _, _ => none

def decListsField (fs : List (String × Json)) : Option (List KList) :=
  match getField fs "lists" with
  | none => some []
  | some .null => some []
  | some (.arr js) => decKLists js
  | some _ => none

def decBoard : Json → Option Board
  | .null => some { id := 0, title := "", lists := [], events := 0 }
  | .obj fs =>
    match decIntField fs "id", decStrField fs "title", decListsField fs,
          decIntField fs "events" with
    | some i, some t, some ls, some e => some { id := i, title := t, lists := ls, events := e }
    | _, _, _, _ => none
  | _ => none

def decBoardEntries : List (String × Json) → Option Boards
  | [] => some []
  | (k, v) :: rest =>
    match parseKey k, decBoard v, decBoardEntries rest with
    | some i, some b, some bs => some ((i, b) :: bs)
    | _, _, _ => none

/-- Go unmarshal of the whole snapshot into the (fresh, empty) board map;
a JSON `null` is a successful no-op, leaving the map empty. -/
def decBoards : Json → Option Boards
  | .null => some []
  | .obj fs => decBoardEntries fs
  | _ => none

/-- Contents of the snapshot file at startup: absent, unreadable (an open /
read error, or bytes that are not a JSON value), or a parsed JSON value. -/
inductive FileState where
  | absent
  | unreadable
  | contents (j : Json)

inductive LoadError where
  | ioError
  | malformed
deriving Repr, DecidableEq

/-- `save` (main.go:74-93) writes exactly the encoded board map (via a temp
file and an atomic rename, which the snapshot-tree model collapses). -/
def save (bs : Boards) : Json := encBoards bs

/-- `load` (main.go:59-72): a missing file is success with the empty map,
anything else must decode into the board map. -/
def load : FileState → Except LoadError Boards
  | .absent => .ok []
  | .unreadable => .error .ioError
  | .contents j =>
    match decBoards j with
    | some bs => .ok bs
    | none => .error .malformed

/-- `main` (main.go:388-391): a load error is fatal (`log.Fatal`), modelled
as `none`; otherwise the process runs with the loaded store. -/
def startup (fs : FileState) : Option Boards :=
  match load fs with
  | .ok bs => some bs
  | .error _ => none

/-! ## Event fan-out (main.go:96-128) -/

/-- A subscriber channel: `make(chan []byte, 16)` — capacity, buffered
messages (FIFO), and whether it has been closed. -/
structure Chan where
  cap : Nat
  buf : List Notif
  closed : Bool
deriving Repr, DecidableEq

/-- The fan-out registry: `streams map[int64]map[chan []byte]struct{}`.
Channels are named by `Nat` identities; `nextCh` injects the freshness of
`make(chan ...)`. -/
structure Fanout where
  streams : List (Int × List Nat)
  chans : List (Nat × Chan)
  nextCh : Nat
deriving Repr, DecidableEq

/-- `s.streams[boardID]` — a missing key reads as the empty set. -/
def lookupStream : List (Int × List Nat) → Int → List Nat
  | [], _ => []
  | (k, v) :: rest, i => if k = i then v else lookupStream rest i

/-- Map assignment `s.streams[boardID] = ...` (overwrite or add). -/
def setStream (m : List (Int × List Nat)) (i : Int) (v : List Nat) : List (Int × List Nat) :=
  match m with
  | [] => [(i, v)]
  | (k, w) :: rest => if k = i then (k, v) :: rest else (k, w) :: setStream rest i v

def lookupChan : List (Nat × Chan) → Nat → Option Chan
  | [], _ => none
  | (k, c) :: rest, i => if k = i then some c else lookupChan rest i

/-- `select { case ch <- b: default: }` (main.go:106-109): deliver if the
buffer has room, otherwise drop the message for this subscriber. -/
def chanSend (c : Chan) (m : Notif) : Chan :=
  if c.buf.length < c.cap then { c with buf := c.buf ++ [m] } else c

/-- `broadcast` (main.go:96-112): offer the message to every subscriber of
the board, never blocking; subscribers of other boards are untouched. -/
def broadcast (f : Fanout) (boardID : Int) (m : Notif) : Fanout :=
  let subs := lookupStream f.streams boardID
  { f with chans := f.chans.map fun p =>
      (p.1, if p.1 ∈ subs then chanSend p.2 m else p.2) }

/-- `subscribe` (main.go:114-121): allocate a fresh channel of capacity 16
and register it under the board id — no board-existence check exists. -/
def subscribe (f : Fanout) (boardID : Int) : Fanout × Nat :=
  ({ streams := setStream f.streams boardID (lookupStream f.streams boardID ++ [f.nextCh]),
     chans := f.chans ++ [(f.nextCh, { cap := 16, buf := [], closed := false })],
     nextCh := f.nextCh + 1 }, f.nextCh)

/-- The cancel closure returned by `subscribe` (main.go:122-127): remove the
channel from the board's registry and close it. -/
def cancelSub (f : Fanout) (boardID : Int) (id : Nat) : Fanout :=
  { f with
    streams := setStream f.streams boardID
      ((lookupStream f.streams boardID).filter fun j => j != id),
    chans := f.chans.map fun p =>
      (p.1, if p.1 = id then { p.2 with closed := true } else p.2) }

/-! ## Concrete fixtures for the witness theorems -/

def wMsg : Notif := Notif.cardMoved 100 11 0
def wChanFull : Chan := { cap := 16, buf := List.replicate 16 wMsg, closed := false }
def wChanEmpty : Chan := { cap := 16, buf := [], closed := false }
def wFanout : Fanout :=
  { streams := [(1, [0, 1])], chans := [(0, wChanFull), (1, wChanEmpty)], nextCh := 2 }
def wReachStore : Boards :=
  (applyOp (applyOp (applyOp [] (Op.createBoard 1 { title := "A" })).boards
    (Op.createList 1 10 { title := "L" })).boards
      (Op.createCard 1 10 100 { title := "c", description := "", due := none })).boards
def wReachList : KList :=
  { id := 10, title := "L", position := 0,
    cards := [{ id := 100, title := "c", description := "", position := 0, due := none }] }
def wReachBoard : Board := { id := 1, title := "A", lists := [wReachList], events := 2 }
def wCard0 : Card := { id := 100, title := "T0", description := "d0", position := 0, due := none }
def wCard1 : Card := { id := 101, title := "T1", description := "", position := 1, due := some 7 }
def wListA : KList := { id := 10, title := "A", position := 0, cards := [wCard0, wCard1] }
def wListB : KList := { id := 11, title := "B", position := 1, cards := [] }
def wBoard : Board := { id := 1, title := "W", lists := [wListA, wListB], events := 5 }
def wStore : Boards := [(1, wBoard)]

/-! ## Helper lemmas about the map / list primitives -/

theorem findList_id (ls : List KList) (i : Int) (l : KList)
    (h : findList ls i = some l) : l.id = i := by
  induction ls with
  | nil => simp [findList] at h
  | cons x rest ih =>
    by_cases hx : x.id = i
    · simp [findList, hx] at h; simp [← h, hx]
    · simp [findList, hx] at h; exact ih h

theorem lookupBoard_updateBoard_self (bs : Boards) (i : Int) (b b' : Board)
    (h : lookupBoard bs i = some b) :
    lookupBoard (updateBoard bs i b') i = some b' := by
  induction bs with
  | nil => simp [lookupBoard] at h
  | cons p rest ih =>
    by_cases hk : p.1 = i
    · simp [lookupBoard, updateBoard, hk]
    · simp [lookupBoard, updateBoard, hk] at h ⊢
      exact ih h

theorem lookupBoard_updateBoard_ne (bs : Boards) (i j : Int) (b' : Board)
    (hne : j ≠ i) :
    lookupBoard (updateBoard bs i b') j = lookupBoard bs j := by
  induction bs with
  | nil => simp [updateBoard]
  | cons p rest ih =>
    by_cases hk : p.1 = i
    · subst hk
      simp [lookupBoard, updateBoard, Ne.symm hne]
    · by_cases hj : p.1 = j
      · simp [lookupBoard, updateBoard, hk, hj, hne]
      · simp [lookupBoard, updateBoard, hk, hj]
        exact ih

theorem findList_setList_self (ls : List KList) (i : Int) (l l' : KList)
    (h : findList ls i = some l) (h' : l'.id = i) :
    findList (setList ls i l') i = some l' := by
  induction ls with
  | nil => simp [findList] at h
  | cons x rest ih =>
    by_cases hx : x.id = i
    · simp [findList, setList, hx, h']
    · simp [findList, setList, hx] at h ⊢
      exact ih h

theorem findList_setList_ne (ls : List KList) (i j : Int) (l' : KList)
    (hne : j ≠ i) (h' : l'.id = i) :
    findList (setList ls i l') j = findList ls j := by
  induction ls with
  | nil => simp [setList]
  | cons x rest ih =>
    by_cases hx : x.id = i
    · simp [findList, setList, hx, h', Ne.symm hne]
    · by_cases hj : x.id = j
      · simp [findList, setList, hx, hj, hne]
      · simp [findList, setList, hx, hj]
        exact ih

/-! ## Concrete evaluations: the move defect (C1) and the scenario (C3) -/

/-- C1. The claim fails on the code: `moveCard` to a nonexistent destination
list returns `NotFound` but does NOT leave the store unchanged — the card has
already been removed from the source list and the source renumbered
(main.go:310-313 run before the destination check at main.go:316-324).
Concretely: one board (id 1) with one list (id 10) holding one card (id 100);
moving card 100 from list 10 to the nonexistent list 99 yields `NotFound`,
no save and no broadcast, yet the stored list 10 has lost its card. -/
theorem moveCard_missing_dest_mutates_store :
    let bs : Boards := [(1,
      { id := 1, title := "B", events := 3,
        lists := [{ id := 10, title := "L", position := 0,
                    cards := [{ id := 100, title := "T", description := "",
                                position := 0, due := none }] }] })]
    let out := moveCard bs 1 { cardID := 100, fromListID := 10, toListID := 99, toPos := 0 }
    out.result = Except.error OpError.notFound ∧
    out.saved = false ∧ out.broadcasts = [] ∧
    out.boards ≠ bs ∧
    out.boards = [(1,
      { id := 1, title := "B", events := 3,
        lists := [{ id := 10, title := "L", position := 0, cards := [] }] })] := by
  decide

/-- C3. Scenario: from the empty store, create board "Alpha", lists "To Do"
and "Done", card "Task1" in "To Do", then move Task1 to "Done" at position 0;
afterwards "To Do" (position 0) is empty, "Done" (position 1) holds exactly
Task1 at position 0, and the board's event counter is 4. -/
theorem scenario_alpha :
    let bs1 : Boards := (createBoard [] 1 { title := "Alpha" }).boards
    let bs2 : Boards := (createList bs1 1 10 { title := "To Do" }).boards
    let bs3 : Boards := (createList bs2 1 11 { title := "Done" }).boards
    let bs4 : Boards :=
      (createCard bs3 1 10 100 { title := "Task1", description := "", due := none }).boards
    let out : OpOut := moveCard bs4 1 { cardID := 100, fromListID := 10, toListID := 11, toPos := 0 }
    out.result = Except.ok () ∧
    out.boards = [(1,
      { id := 1, title := "Alpha", events := 4,
        lists := [ { id := 10, title := "To Do", position := 0, cards := [] },
                   { id := 11, title := "Done", position := 1,
                     cards := [{ id := 100, title := "Task1", description := "",
                                 position := 0, due := none }] } ] })] := by
  decide

/-- C2. `createCard` behaviour (main.go:224-263): `InvalidInput` when the
decoded title is empty (this check runs first); `NotFound`, with the store
unchanged, no save and no broadcast, when the board id or the list id does
not resolve; otherwise a card carrying the request's title, description and
optional due timestamp is appended, at position = the list's card count
before the call. -/
theorem createCard_spec (bs : Boards) (boardID listID newID : Int) (req : CardReq) :
    (req.title = "" →
      createCard bs boardID listID newID req =
        ⟨bs, .error .invalidInput, false, []⟩) ∧
    (req.title ≠ "" → lookupBoard bs boardID = none →
      createCard bs boardID listID newID req = ⟨bs, .error .notFound, false, []⟩) ∧
    (req.title ≠ "" → ∀ b, lookupBoard bs boardID = some b →
      findList b.lists listID = none →
      createCard bs boardID listID newID req = ⟨bs, .error .notFound, false, []⟩) ∧
    (req.title ≠ "" → ∀ b l, lookupBoard bs boardID = some b →
      findList b.lists listID = some l →
      ∃ c : Card, c.title = req.title ∧ c.description = req.description ∧
        c.due = req.due ∧ c.position = (l.cards.length : Int) ∧
        (createCard bs boardID listID newID req).result = .ok () ∧
        ∃ b', lookupBoard (createCard bs boardID listID newID req).boards boardID = some b' ∧
          findList b'.lists listID = some { l with cards := l.cards ++ [c] }) := by
  refine ⟨?_, ?_, ?_, ?_⟩
  · intro h
    simp [createCard, h]
  · intro h hb
    simp [createCard, h, hb]
  · intro h b hb hl
    simp [createCard, h, hb, hl]
  · intro h b l hb hl
    refine ⟨{ id := newID, title := req.title, description := req.description,
              position := (l.cards.length : Int), due := req.due },
      rfl, rfl, rfl, rfl, ?_, ?_⟩
    · simp [createCard, h, hb, hl]
    · have hid : l.id = listID := findList_id b.lists listID l hl
      refine ⟨{ b with
          lists := setList b.lists listID
            { l with cards := l.cards ++
                [{ id := newID, title := req.title, description := req.description,
                   position := (l.cards.length : Int), due := req.due }] },
          events := b.events + 1 }, ?_, ?_⟩
      · show lookupBoard (createCard bs boardID listID newID req).boards boardID = _
        simp only [createCard, if_neg h, hb, hl]
        exact lookupBoard_updateBoard_self bs boardID b _ hb
      · exact findList_setList_self b.lists listID l _ hl hid

/-- C2 witness: on the sample store, an empty title is rejected with the
store untouched, and a real request appends the card to list 10 at position
2 carrying its fields. -/
theorem createCard_spec_witness :
    (createCard wStore 1 10 200 { title := "", description := "x", due := none } =
      ⟨wStore, .error .invalidInput, false, []⟩) ∧
    (∃ c : Card, c.title = "New" ∧ c.description = "nd" ∧ c.due = some 9 ∧
      c.position = (wListA.cards.length : Int) ∧
      (createCard wStore 1 10 200
        { title := "New", description := "nd", due := some 9 }).result = .ok () ∧
      ∃ b', lookupBoard (createCard wStore 1 10 200
          { title := "New", description := "nd", due := some 9 }).boards 1 = some b' ∧
        findList b'.lists 10 = some { wListA with cards := wListA.cards ++ [c] }) := by
  constructor
  · exact (createCard_spec wStore 1 10 200
      { title := "", description := "x", due := none }).1 rfl
  · exact (createCard_spec wStore 1 10 200
      { title := "New", description := "nd", due := some 9 }).2.2.2 (by decide) wBoard wListA
      (by decide) (by decide)

/-! ## Lemmas about renumbering, insertion and clamping -/

theorem renumberFrom_length (n : Nat) (cs : List Card) :
    (renumberFrom n cs).length = cs.length := by
  induction cs generalizing n with
  | nil => rfl
  | cons c rest ih => simp [renumberFrom, ih]

theorem insertAt_length (pos : Nat) (c : Card) (cs : List Card) (h : pos ≤ cs.length) :
    (insertAt pos c cs).length = cs.length + 1 := by
  induction pos generalizing cs with
  | zero => simp [insertAt]
  | succ p ih =>
    cases cs with
    | nil => simp at h
    | cons x xs =>
      simp only [insertAt, List.length_cons]
      rw [ih xs (by simpa using h)]

theorem insertAt_get_self (pos : Nat) (c : Card) (cs : List Card) (h : pos ≤ cs.length) :
    (insertAt pos c cs)[pos]? = some c := by
  induction pos generalizing cs with
  | zero => cases cs <;> simp [insertAt]
  | succ p ih =>
    cases cs with
    | nil => simp at h
    | cons x xs =>
      simp only [insertAt, List.getElem?_cons_succ]
      exact ih xs (by simpa using h)

theorem renumberFrom_get (n : Nat) (cs : List Card) (k : Nat) :
    (renumberFrom n cs)[k]? =
      cs[k]?.map fun c => { c with position := ((n + k : Nat) : Int) } := by
  induction cs generalizing n k with
  | nil => simp [renumberFrom]
  | cons c rest ih =>
    cases k with
    | zero => simp [renumberFrom]
    | succ k =>
      simp only [renumberFrom, List.getElem?_cons_succ]
      rw [ih (n + 1) k]
      have : n + 1 + k = n + (k + 1) := by omega
      rw [this]

theorem clampPos_le (p : Int) (n : Nat) : clampPos p n ≤ n := by
  unfold clampPos
  split
  · exact Nat.le_refl n
  · omega

theorem clampPos_high (p : Int) (n : Nat) (h : p < 0 ∨ (n : Int) ≤ p) :
    clampPos p n = n := by
  unfold clampPos
  split
  · rfl
  · omega

theorem clampPos_in_range (p : Int) (n : Nat) (h0 : 0 ≤ p) (h1 : p ≤ (n : Int)) :
    (clampPos p n : Int) = p := by
  unfold clampPos
  split
  · omega
  · omega

/-- C5. On a successful `moveCard`, the requested target position is clamped
against the destination's current length (the length at clamp time,
main.go:326-328): a negative or too-large request — including exactly the
destination length — lands the card at the tail (index = destination length
before insertion), and an in-range request lands it at exactly that index;
the landed card's recorded position equals its index. -/
theorem moveCard_clamp_spec (bs : Boards) (boardID : Int) (req : MoveReq)
    (b : Board) (src : KList) (c : Card) (rest : List Card) (dst : KList)
    (hb : lookupBoard bs boardID = some b)
    (hf : findList b.lists req.fromListID = some src)
    (hr : removeCard src.cards req.cardID = some (c, rest))
    (hd : findList (setList b.lists req.fromListID { src with cards := renumber rest })
        req.toListID = some dst) :
    (moveCard bs boardID req).result = .ok () ∧
    ((req.toPos < 0 ∨ (dst.cards.length : Int) ≤ req.toPos) →
      clampPos req.toPos dst.cards.length = dst.cards.length) ∧
    (0 ≤ req.toPos → req.toPos ≤ (dst.cards.length : Int) →
      (clampPos req.toPos dst.cards.length : Int) = req.toPos) ∧
    ∃ b' dst', lookupBoard (moveCard bs boardID req).boards boardID = some b' ∧
      findList b'.lists req.toListID = some dst' ∧
      dst'.cards.length = dst.cards.length + 1 ∧
      dst'.cards[clampPos req.toPos dst.cards.length]? =
        some { c with position := ((clampPos req.toPos dst.cards.length : Nat) : Int) } := by
  have hdid : dst.id = req.toListID := findList_id _ _ _ hd
  refine ⟨?_, fun h => clampPos_high _ _ h, fun h0 h1 => clampPos_in_range _ _ h0 h1, ?_⟩
  · simp [moveCard, hb, hf, hr, hd]
  · refine ⟨?b1, ?d1, ?g1, ?g2, ?g3, ?g4⟩
    case g1 =>
      show lookupBoard (moveCard bs boardID req).boards boardID = _
      simp only [moveCard, hb, hf, hr, hd]
      exact lookupBoard_updateBoard_self bs boardID b _ hb
    case g2 =>
      exact findList_setList_self _ req.toListID dst
        { dst with cards := renumber (insertAt (clampPos req.toPos dst.cards.length) c dst.cards) }
        hd hdid
    case g3 =>
      simp [renumber, renumberFrom_length,
        insertAt_length _ _ _ (clampPos_le req.toPos dst.cards.length)]
    case g4 =>
      simp only [renumber]
      rw [renumberFrom_get, insertAt_get_self _ _ _ (clampPos_le req.toPos dst.cards.length)]
      simp

/-- C5 witness: moving card 100 from list 10 to the empty list 11 with the
out-of-range request 5 clamps to the tail (index 0 of the destination). -/
theorem moveCard_clamp_spec_witness :
    (moveCard wStore 1 ⟨100, 10, 11, 5⟩).result = .ok () ∧
    (((5 : Int) < 0 ∨ (wListB.cards.length : Int) ≤ (5 : Int)) →
      clampPos 5 wListB.cards.length = wListB.cards.length) ∧
    ((0 : Int) ≤ (5 : Int) → (5 : Int) ≤ (wListB.cards.length : Int) →
      (clampPos 5 wListB.cards.length : Int) = (5 : Int)) ∧
    ∃ b' dst', lookupBoard (moveCard wStore 1 ⟨100, 10, 11, 5⟩).boards 1 = some b' ∧
      findList b'.lists 11 = some dst' ∧
      dst'.cards.length = wListB.cards.length + 1 ∧
      dst'.cards[clampPos 5 wListB.cards.length]? =
        some { wCard0 with position := ((clampPos 5 wListB.cards.length : Nat) : Int) } := by
  exact moveCard_clamp_spec wStore 1 ⟨100, 10, 11, 5⟩ wBoard wListA wCard0 [wCard1] wListB
    (by decide) (by decide) (by decide) (by decide)

/-! ## Lemmas about map insertion, and the event-counter helpers -/

theorem lookupBoard_append (bs : Boards) (k : Int) (b : Board) (i : Int) :
    lookupBoard (bs ++ [(k, b)]) i =
      match lookupBoard bs i with
      | some x => some x
      | none => if k = i then some b else none := by
  induction bs with
  | nil => simp [lookupBoard]
  | cons p rest ih => by_cases h : p.1 = i <;> simp [lookupBoard, h, ih]

theorem lookupBoard_insertBoard_self (bs : Boards) (k : Int) (b : Board) :
    lookupBoard (insertBoard bs k b) k = some b := by
  unfold insertBoard
  cases h : lookupBoard bs k with
  | some x => simp [h, lookupBoard_updateBoard_self bs k x b h]
  | none =>
    simp only [h, Option.isSome_none, Bool.false_eq_true, if_false]
    rw [lookupBoard_append, h]
    simp

theorem lookupBoard_insertBoard_ne (bs : Boards) (k : Int) (b : Board) (i : Int)
    (h : i ≠ k) : lookupBoard (insertBoard bs k b) i = lookupBoard bs i := by
  unfold insertBoard
  cases hk : lookupBoard bs k with
  | some x => simp [lookupBoard_updateBoard_ne bs k i b h]
  | none =>
    simp only [Option.isSome_none, Bool.false_eq_true, if_false]
    rw [lookupBoard_append]
    cases hi : lookupBoard bs i with
    | some x => rfl
    | none => simp [Ne.symm h]

theorem applyOp_error_events (bs : Boards) (op : Op) (e : OpError)
    (he : (applyOp bs op).result = .error e) (i : Int) :
    eventsOf (applyOp bs op).boards i = eventsOf bs i := by
  cases op with
  | createBoard newID req =>
    by_cases ht : req.title = ""
    · simp [applyOp, createBoard, ht]
    · simp [applyOp, createBoard, ht] at he
  | createList boardID newID req =>
    by_cases ht : req.title = ""
    · simp [applyOp, createList, ht]
    · cases hb : lookupBoard bs boardID with
      | none => simp [applyOp, createList, ht, hb]
      | some b => simp [applyOp, createList, ht, hb] at he
  | createCard boardID listID newID req =>
    by_cases ht : req.title = ""
    · simp [applyOp, createCard, ht]
    · cases hb : lookupBoard bs boardID with
      | none => simp [applyOp, createCard, ht, hb]
      | some b =>
        cases hl : findList b.lists listID with
        | none => simp [applyOp, createCard, ht, hb, hl]
        | some l => simp [applyOp, createCard, ht, hb, hl] at he
  | moveCard boardID req =>
    cases hb : lookupBoard bs boardID with
    | none => simp [applyOp, moveCard, hb]
    | some b =>
      cases hf : findList b.lists req.fromListID with
      | none => simp [applyOp, moveCard, hb, hf]
      | some src =>
        cases hr : removeCard src.cards req.cardID with
        | none => simp [applyOp, moveCard, hb, hf, hr]
        | some p =>
          obtain ⟨c, rest⟩ := p
          cases hd : findList (setList b.lists req.fromListID
              { src with cards := renumber rest }) req.toListID with
          | some dst => simp [applyOp, moveCard, hb, hf, hr, hd] at he
          | none =>
            by_cases hi : i = boardID
            · subst hi
              simp only [applyOp, moveCard, hb, hf, hr, hd, eventsOf]
              rw [lookupBoard_updateBoard_self bs i b _ hb]
              rfl
            · simp only [applyOp, moveCard, hb, hf, hr, hd, eventsOf]
              rw [lookupBoard_updateBoard_ne bs boardID i _ hi]

theorem applyOp_other_events (bs : Boards) (op : Op) (i : Int)
    (hi : i ≠ opTarget op) :
    eventsOf (applyOp bs op).boards i = eventsOf bs i := by
  cases op with
  | createBoard newID req =>
    rw [opTarget] at hi
    by_cases ht : req.title = ""
    · simp [applyOp, createBoard, ht]
    · simp only [applyOp, createBoard, if_neg ht, eventsOf]
      rw [lookupBoard_insertBoard_ne bs newID _ i hi]
  | createList boardID newID req =>
    rw [opTarget] at hi
    by_cases ht : req.title = ""
    · simp [applyOp, createList, ht]
    · cases hb : lookupBoard bs boardID with
      | none => simp [applyOp, createList, ht, hb]
      | some b =>
        simp only [applyOp, createList, if_neg ht, hb, eventsOf]
        rw [lookupBoard_updateBoard_ne bs boardID i _ hi]
  | createCard boardID listID newID req =>
    rw [opTarget] at hi
    by_cases ht : req.title = ""
    · simp [applyOp, createCard, ht]
    · cases hb : lookupBoard bs boardID with
      | none => simp [applyOp, createCard, ht, hb]
      | some b =>
        cases hl : findList b.lists listID with
        | none => simp [applyOp, createCard, ht, hb, hl]
        | some l =>
          simp only [applyOp, createCard, if_neg ht, hb, hl, eventsOf]
          rw [lookupBoard_updateBoard_ne bs boardID i _ hi]
  | moveCard boardID req =>
    rw [opTarget] at hi
    cases hb : lookupBoard bs boardID with
    | none => simp [applyOp, moveCard, hb]
    | some b =>
      cases hf : findList b.lists req.fromListID with
      | none => simp [applyOp, moveCard, hb, hf]
      | some src =>
        cases hr : removeCard src.cards req.cardID with
        | none => simp [applyOp, moveCard, hb, hf, hr]
        | some p =>
          obtain ⟨c, rest⟩ := p
          cases hd : findList (setList b.lists req.fromListID
              { src with cards := renumber rest }) req.toListID with
          | none =>
            simp only [applyOp, moveCard, hb, hf, hr, hd, eventsOf]
            rw [lookupBoard_updateBoard_ne bs boardID i _ hi]
          | some dst =>
            simp only [applyOp, moveCard, hb, hf, hr, hd, eventsOf]
            rw [lookupBoard_updateBoard_ne bs boardID i _ hi]

theorem applyOp_events_mono (bs : Boards) (op : Op) (hfr : opFresh bs op = true)
    (i : Int) (b : Board) (h : lookupBoard bs i = some b) :
    ∃ b', lookupBoard (applyOp bs op).boards i = some b' ∧ b.events ≤ b'.events := by
  by_cases hi : i = opTarget op
  case neg =>
    have hev := applyOp_other_events bs op i hi
    rw [eventsOf, eventsOf, h] at hev
    cases hq : lookupBoard (applyOp bs op).boards i with
    | none => rw [hq] at hev; simp at hev
    | some x =>
      rw [hq] at hev
      simp at hev
      exact ⟨x, rfl, by omega⟩

  case pos =>
    subst hi
    cases op with
    | createBoard newID req =>
      rw [opTarget] at h
      rw [opFresh] at hfr
      rw [h] at hfr
      simp at hfr
    | createList boardID newID req =>
      rw [opTarget] at h
      by_cases ht : req.title = ""
      · exact ⟨b, by simp [applyOp, opTarget, createList, ht, h], le_refl _⟩
      · simp only [applyOp, opTarget, createList, if_neg ht, h]
        refine ⟨_, lookupBoard_updateBoard_self bs boardID b _ h, ?_⟩
        show b.events ≤ b.events + 1
        omega
    | createCard boardID listID newID req =>
      rw [opTarget] at h
      by_cases ht : req.title = ""
      · exact ⟨b, by simp [applyOp, opTarget, createCard, ht, h], le_refl _⟩
      · cases hl : findList b.lists listID with
        | none =>
          exact ⟨b, by simp [applyOp, opTarget, createCard, ht, h, hl], le_refl _⟩
        | some l =>
          simp only [applyOp, opTarget, createCard, if_neg ht, h, hl]
          refine ⟨_, lookupBoard_updateBoard_self bs boardID b _ h, ?_⟩
          show b.events ≤ b.events + 1
          omega
    | moveCard boardID req =>
      rw [opTarget] at h
      cases hf : findList b.lists req.fromListID with
      | none => exact ⟨b, by simp [applyOp, opTarget, moveCard, h, hf], le_refl _⟩
      | some src =>
        cases hr : removeCard src.cards req.cardID with
        | none => exact ⟨b, by simp [applyOp, opTarget, moveCard, h, hf, hr], le_refl _⟩
        | some p =>
          obtain ⟨c, rest⟩ := p
          cases hd : findList (setList b.lists req.fromListID
              { src with cards := renumber rest }) req.toListID with
          | none =>
            simp only [applyOp, opTarget, moveCard, h, hf, hr, hd]
            refine ⟨_, lookupBoard_updateBoard_self bs boardID b _ h, ?_⟩
            show b.events ≤ b.events
            omega
          | some dst =>
            simp only [applyOp, opTarget, moveCard, h, hf, hr, hd]
            refine ⟨_, lookupBoard_updateBoard_self bs boardID b _ h, ?_⟩
            show b.events ≤ b.events + 1
            omega

theorem applyOp_ok_events (bs : Boards) (op : Op)
    (hok : (applyOp bs op).result = .ok ()) : okEventsSpec bs op := by
  cases op with
  | createBoard newID req =>
    by_cases ht : req.title = ""
    · simp [applyOp, createBoard, ht] at hok
    · simp only [okEventsSpec, applyOp, createBoard, if_neg ht, eventsOf]
      rw [lookupBoard_insertBoard_self]
      rfl
  | createList boardID newID req =>
    by_cases ht : req.title = ""
    · simp [applyOp, createList, ht] at hok
    · cases hb : lookupBoard bs boardID with
      | none => simp [applyOp, createList, ht, hb] at hok
      | some b =>
        simp only [okEventsSpec]
        refine ⟨b.events, by simp [eventsOf, opTarget, hb], ?_⟩
        simp only [applyOp, createList, if_neg ht, hb, eventsOf, opTarget]
        rw [lookupBoard_updateBoard_self bs boardID b _ hb]
        rfl
  | createCard boardID listID newID req =>
    by_cases ht : req.title = ""
    · simp [applyOp, createCard, ht] at hok
    · cases hb : lookupBoard bs boardID with
      | none => simp [applyOp, createCard, ht, hb] at hok
      | some b =>
        cases hl : findList b.lists listID with
        | none => simp [applyOp, createCard, ht, hb, hl] at hok
        | some l =>
          simp only [okEventsSpec]
          refine ⟨b.events, by simp [eventsOf, opTarget, hb], ?_⟩
          simp only [applyOp, createCard, if_neg ht, hb, hl, eventsOf, opTarget]
          rw [lookupBoard_updateBoard_self bs boardID b _ hb]
          rfl
  | moveCard boardID req =>
    cases hb : lookupBoard bs boardID with
    | none => simp [applyOp, moveCard, hb] at hok
    | some b =>
      cases hf : findList b.lists req.fromListID with
      | none => simp [applyOp, moveCard, hb, hf] at hok
      | some src =>
        cases hr : removeCard src.cards req.cardID with
        | none => simp [applyOp, moveCard, hb, hf, hr] at hok
        | some p =>
          obtain ⟨c, rest⟩ := p
          cases hd : findList (setList b.lists req.fromListID
              { src with cards := renumber rest }) req.toListID with
          | none => simp [applyOp, moveCard, hb, hf, hr, hd] at hok
          | some dst =>
            simp only [okEventsSpec]
            refine ⟨b.events, by simp [eventsOf, opTarget, hb], ?_⟩
            simp only [applyOp, moveCard, hb, hf, hr, hd, eventsOf, opTarget]
            rw [lookupBoard_updateBoard_self bs boardID b _ hb]
            rfl

/-- C6. Event counters: under unique board-identifier allocation
(spec §4.1), no board's counter ever decreases across any operation; a
failed operation changes no counter; an operation leaves the counter of
every board other than its target unchanged; and a successful
`createList` / `createCard` / `moveCard` bumps its board's counter by
exactly one, while a successful `createBoard` initializes its new board's
counter to 0 (main.go:161, 202, 257, 335). -/
theorem events_counter_spec (bs : Boards) (op : Op) (hfr : opFresh bs op = true) :
    (∀ i b, lookupBoard bs i = some b →
      ∃ b', lookupBoard (applyOp bs op).boards i = some b' ∧ b.events ≤ b'.events) ∧
    (∀ e, (applyOp bs op).result = .error e →
      ∀ i, eventsOf (applyOp bs op).boards i = eventsOf bs i) ∧
    (∀ i, i ≠ opTarget op → eventsOf (applyOp bs op).boards i = eventsOf bs i) ∧
    ((applyOp bs op).result = .ok () → okEventsSpec bs op) :=
  ⟨fun i b h => applyOp_events_mono bs op hfr i b h,
   fun e he i => applyOp_error_events bs op e he i,
   fun i hi => applyOp_other_events bs op i hi,
   fun hok => applyOp_ok_events bs op hok⟩

/-- C6 witness: creating list 50 on board 1 of the sample store bumps that
board's event counter from 5 to 6. -/
theorem events_counter_spec_witness :
    ∃ e, eventsOf wStore (opTarget (Op.createList 1 50 { title := "L" })) = some e ∧
      eventsOf (applyOp wStore (Op.createList 1 50 { title := "L" })).boards
        (opTarget (Op.createList 1 50 { title := "L" })) = some (e + 1) := by
  exact (events_counter_spec wStore (Op.createList 1 50 { title := "L" })
    (by decide)).2.2.2 (by decide)

/-! ## Position-contiguity preservation (C4) -/

theorem cardPositionsFrom_renumberFrom (n : Nat) (cs : List Card) :
    cardPositionsFrom n (renumberFrom n cs) = true := by
  induction cs generalizing n with
  | nil => rfl
  | cons c rest ih => simp [renumberFrom, cardPositionsFrom, ih]

theorem cardPositionsFrom_append (n : Nat) (cs : List Card) (c : Card)
    (h : cardPositionsFrom n cs = true)
    (hp : c.position = ((n + cs.length : Nat) : Int)) :
    cardPositionsFrom n (cs ++ [c]) = true := by
  induction cs generalizing n with
  | nil => simp [cardPositionsFrom] at hp ⊢; simp [hp]
  | cons x rest ih =>
    simp only [cardPositionsFrom, Bool.and_eq_true] at h
    simp only [List.cons_append, cardPositionsFrom, Bool.and_eq_true]
    refine ⟨h.1, ih (n + 1) h.2 ?_⟩
    rw [hp]
    congr 1
    simp
    omega

theorem listPositionsFrom_append (n : Nat) (ls : List KList) (l : KList)
    (h : listPositionsFrom n ls = true)
    (hp : l.position = ((n + ls.length : Nat) : Int))
    (hc : cardPositionsFrom 0 l.cards = true) :
    listPositionsFrom n (ls ++ [l]) = true := by
  induction ls generalizing n with
  | nil =>
    simp only [List.length_nil, Nat.add_zero] at hp
    simp [listPositionsFrom, hp, hc]
  | cons x rest ih =>
    simp only [listPositionsFrom, Bool.and_eq_true] at h
    simp only [List.cons_append, listPositionsFrom, Bool.and_eq_true]
    refine ⟨⟨h.1.1, h.1.2⟩, ih (n + 1) h.2 ?_⟩
    rw [hp]
    congr 1
    simp
    omega

theorem cardsOk_of_findList (n : Nat) (ls : List KList) (i : Int) (l : KList)
    (h : listPositionsFrom n ls = true) (hf : findList ls i = some l) :
    cardPositionsFrom 0 l.cards = true := by
  induction ls generalizing n with
  | nil => simp [findList] at hf
  | cons x rest ih =>
    simp only [listPositionsFrom, Bool.and_eq_true] at h
    by_cases hx : x.id = i
    · simp only [findList, hx, if_true] at hf
      cases hf
      exact h.1.2
    · simp only [findList, hx, if_false] at hf
      exact ih (n + 1) h.2 hf

theorem listPositionsFrom_setList (n : Nat) (ls : List KList) (i : Int) (l l' : KList)
    (h : listPositionsFrom n ls = true) (hf : findList ls i = some l)
    (hp : l'.position = l.position) (hc : cardPositionsFrom 0 l'.cards = true) :
    listPositionsFrom n (setList ls i l') = true := by
  induction ls generalizing n with
  | nil => simp [findList] at hf
  | cons x rest ih =>
    simp only [listPositionsFrom, Bool.and_eq_true] at h
    by_cases hx : x.id = i
    · simp only [findList, hx, if_true] at hf
      cases hf
      simp only [setList, hx, if_true, listPositionsFrom, Bool.and_eq_true]
      exact ⟨⟨by rw [hp]; exact h.1.1, hc⟩, h.2⟩
    · simp only [findList, hx, if_false] at hf
      simp only [setList, hx, if_false, listPositionsFrom, Bool.and_eq_true]
      exact ⟨⟨h.1.1, h.1.2⟩, ih (n + 1) h.2 hf⟩

theorem boardOk_of_lookup (bs : Boards) (i : Int) (b : Board)
    (h : storeOk bs = true) (hb : lookupBoard bs i = some b) : boardOk b = true := by
  induction bs with
  | nil => simp [lookupBoard] at hb
  | cons p rest ih =>
    simp only [storeOk, List.all_cons, Bool.and_eq_true] at h
    by_cases hk : p.1 = i
    · simp only [lookupBoard, hk, if_true] at hb
      cases hb
      exact h.1
    · simp only [lookupBoard, hk, if_false] at hb
      exact ih h.2 hb

theorem storeOk_updateBoard (bs : Boards) (i : Int) (b' : Board)
    (h : storeOk bs = true) (hb : boardOk b' = true) :
    storeOk (updateBoard bs i b') = true := by
  induction bs with
  | nil => simp [updateBoard, storeOk]
  | cons p rest ih =>
    simp only [storeOk, List.all_cons, Bool.and_eq_true] at h
    by_cases hk : p.1 = i
    · simp only [updateBoard, hk, if_true, storeOk, List.all_cons, Bool.and_eq_true]
      exact ⟨hb, h.2⟩
    · simp only [updateBoard, hk, if_false, storeOk, List.all_cons, Bool.and_eq_true]
      exact ⟨h.1, ih h.2⟩

theorem storeOk_insertBoard (bs : Boards) (i : Int) (b : Board)
    (h : storeOk bs = true) (hb : boardOk b = true) :
    storeOk (insertBoard bs i b) = true := by
  unfold insertBoard
  split
  · exact storeOk_updateBoard bs i b h hb
  · simp only [storeOk, List.all_append, Bool.and_eq_true]
    exact ⟨h, by simp [hb]⟩

theorem applyOp_preserves_storeOk (bs : Boards) (op : Op)
    (h : storeOk bs = true) : storeOk (applyOp bs op).boards = true := by
  cases op with
  | createBoard newID req =>
    by_cases ht : req.title = ""
    · simpa [applyOp, createBoard, ht] using h
    · simp only [applyOp, createBoard, if_neg ht]
      exact storeOk_insertBoard bs newID _ h rfl
  | createList boardID newID req =>
    by_cases ht : req.title = ""
    · simpa [applyOp, createList, ht] using h
    · cases hb : lookupBoard bs boardID with
      | none => simpa [applyOp, createList, ht, hb] using h
      | some b =>
        simp only [applyOp, createList, if_neg ht, hb]
        refine storeOk_updateBoard bs boardID _ h ?_
        show listPositionsFrom 0 (b.lists ++ [_]) = true
        refine listPositionsFrom_append 0 b.lists _ (boardOk_of_lookup bs boardID b h hb) ?_ rfl
        simp
  | createCard boardID listID newID req =>
    by_cases ht : req.title = ""
    · simpa [applyOp, createCard, ht] using h
    · cases hb : lookupBoard bs boardID with
      | none => simpa [applyOp, createCard, ht, hb] using h
      | some b =>
        cases hl : findList b.lists listID with
        | none => simpa [applyOp, createCard, ht, hb, hl] using h
        | some l =>
          simp only [applyOp, createCard, if_neg ht, hb, hl]
          have hok : listPositionsFrom 0 b.lists = true := boardOk_of_lookup bs boardID b h hb
          refine storeOk_updateBoard bs boardID _ h ?_
          show listPositionsFrom 0 (setList b.lists listID _) = true
          refine listPositionsFrom_setList 0 b.lists listID l _ hok hl rfl ?_
          refine cardPositionsFrom_append 0 l.cards _ (cardsOk_of_findList 0 b.lists listID l hok hl) ?_
          simp
  | moveCard boardID req =>
    cases hb : lookupBoard bs boardID with
    | none => simpa [applyOp, moveCard, hb] using h
    | some b =>
      cases hf : findList b.lists req.fromListID with
      | none => simpa [applyOp, moveCard, hb, hf] using h
      | some src =>
        cases hr : removeCard src.cards req.cardID with
        | none => simpa [applyOp, moveCard, hb, hf, hr] using h
        | some p =>
          obtain ⟨c, rest⟩ := p
          have hok : listPositionsFrom 0 b.lists = true := boardOk_of_lookup bs boardID b h hb
          have hb1 : listPositionsFrom 0
              (setList b.lists req.fromListID { src with cards := renumber rest }) = true :=
            listPositionsFrom_setList 0 b.lists req.fromListID src _ hok hf rfl
              (cardPositionsFrom_renumberFrom 0 rest)
          cases hd : findList (setList b.lists req.fromListID
              { src with cards := renumber rest }) req.toListID with
          | none =>
            simp only [applyOp, moveCard, hb, hf, hr, hd]
            exact storeOk_updateBoard bs boardID _ h hb1
          | some dst =>
            simp only [applyOp, moveCard, hb, hf, hr, hd]
            refine storeOk_updateBoard bs boardID _ h ?_
            show listPositionsFrom 0 (setList (setList b.lists req.fromListID _) req.toListID _) = true
            exact listPositionsFrom_setList 0 _ req.toListID dst _ hb1 hd rfl
              (cardPositionsFrom_renumberFrom 0 _)

theorem map_position_of_cardPositionsFrom (cs : List Card) (n : Nat)
    (h : cardPositionsFrom n cs = true) :
    cs.map Card.position = (List.range' n cs.length).map Int.ofNat := by
  induction cs generalizing n with
  | nil => rfl
  | cons c rest ih =>
    simp only [cardPositionsFrom, Bool.and_eq_true, beq_iff_eq] at h
    simp only [List.map_cons, List.length_cons, List.range'_succ, h.1, ih (n + 1) h.2]
    rfl

theorem map_position_of_listPositionsFrom (ls : List KList) (n : Nat)
    (h : listPositionsFrom n ls = true) :
    ls.map KList.position = (List.range' n ls.length).map Int.ofNat ∧
      ∀ l ∈ ls, cardPositionsFrom 0 l.cards = true := by
  induction ls generalizing n with
  | nil => simp
  | cons x rest ih =>
    simp only [listPositionsFrom, Bool.and_eq_true, beq_iff_eq] at h
    obtain ⟨hmap, hcards⟩ := ih (n + 1) h.2
    constructor
    · simp only [List.map_cons, List.length_cons, List.range'_succ, h.1.1, hmap]
      rfl
    · intro l hl
      rcases List.mem_cons.mp hl with rfl | hl
      · exact h.1.2
      · exact hcards l hl

/-- C4. In every store reachable from the empty store by successful
operations, each list's card positions are exactly `0..n-1` in sequence
order, and each board's list positions are exactly `0..m-1` in insertion
order (main.go:199, 255, 311-313, 332-334). -/
theorem reachable_positions_contiguous (bs : Boards) (h : Reachable bs) :
    ∀ p ∈ bs, p.2.lists.map KList.position = (List.range p.2.lists.length).map Int.ofNat ∧
      ∀ l ∈ p.2.lists,
        l.cards.map Card.position = (List.range l.cards.length).map Int.ofNat := by
  have hok : storeOk bs = true := by
    induction h with
    | empty => rfl
    | step bs op hr hk ih => exact applyOp_preserves_storeOk bs op ih
  intro p hp
  have hbo : boardOk p.2 = true := by
    rw [storeOk, List.all_eq_true] at hok
    exact hok p hp
  rw [boardOk] at hbo
  obtain ⟨hmap, hcards⟩ := map_position_of_listPositionsFrom p.2.lists 0 hbo
  refine ⟨by rw [hmap, List.range_eq_range'], ?_⟩
  intro l hl
  rw [map_position_of_cardPositionsFrom l.cards 0 (hcards l hl), List.range_eq_range']

/-- C4 witness: in the concrete reachable store built by creating board 1,
list 10 and one card, both the board's list positions and the list's card
positions are the contiguous ranges. -/
theorem reachable_positions_contiguous_witness :
    wReachBoard.lists.map KList.position =
      (List.range wReachBoard.lists.length).map Int.ofNat ∧
    wReachList.cards.map Card.position =
      (List.range wReachList.cards.length).map Int.ofNat := by
  have h1 : Reachable (applyOp [] (Op.createBoard 1 { title := "A" })).boards :=
    Reachable.step [] _ Reachable.empty (by decide)
  have h2 : Reachable (applyOp (applyOp [] (Op.createBoard 1 { title := "A" })).boards
      (Op.createList 1 10 { title := "L" })).boards :=
    Reachable.step _ _ h1 (by decide)
  have h3 : Reachable wReachStore :=
    Reachable.step _ _ h2 (by decide)
  have h := reachable_positions_contiguous wReachStore h3 (1, wReachBoard) (by decide)
  exact ⟨h.1, h.2 wReachList (by decide)⟩

/-! ## Persistence round trip (C7) -/

theorem digitVal_digitChar : ∀ d, d < 10 → digitVal (digitChar d) = some d := by decide

theorem digitChar_ne_sign :
    ∀ d, d < 10 → digitChar d ≠ Char.ofNat 45 ∧ digitChar d ≠ Char.ofNat 43 := by decide

theorem parseDigits_map_digitChar (ds : List Nat) (h : ∀ d ∈ ds, d < 10) :
    parseDigits (ds.map digitChar) = some ds := by
  induction ds with
  | nil => rfl
  | cons d rest ih =>
    simp only [List.map_cons, parseDigits]
    rw [digitVal_digitChar d (h d (by simp)), ih fun x hx => h x (by simp [hx])]

theorem parseNatChars_digits (n : Nat) (h0 : n ≠ 0) :
    parseNatChars ((Nat.digits 10 n).reverse.map digitChar) = some n := by
  have hne : Nat.digits 10 n ≠ [] := Nat.digits_ne_nil_iff_ne_zero.mpr h0
  have hlt : ∀ d ∈ (Nat.digits 10 n).reverse, d < 10 := fun d hd =>
    Nat.digits_lt_base (by norm_num) (List.mem_reverse.mp hd)
  rw [parseNatChars]
  have hE : ((Nat.digits 10 n).reverse.map digitChar).isEmpty = false := by
    simp [hne]
  rw [hE]
  simp only [Bool.false_eq_true, if_false]
  rw [parseDigits_map_digitChar _ hlt]
  simp [Nat.ofDigits_digits]

theorem natKey_data (n : Nat) (h0 : n ≠ 0) :
    (natKey n).data = (Nat.digits 10 n).reverse.map digitChar := by
  rw [natKey, if_neg h0]
  show ((Nat.digits 10 n).map digitChar).reverse = _
  rw [List.map_reverse]

theorem parseNatChars_natKey (n : Nat) : parseNatChars (natKey n).data = some n := by
  by_cases h0 : n = 0
  · subst h0; decide
  · rw [natKey_data n h0]
    exact parseNatChars_digits n h0

theorem parseKey_natKey (n : Nat) : parseKey (natKey n) = some (n : Int) := by
  by_cases h0 : n = 0
  · subst h0; decide
  · obtain ⟨e, es, hrev⟩ : ∃ e es, (Nat.digits 10 n).reverse = e :: es := by
      cases hd : (Nat.digits 10 n).reverse with
      | nil =>
        exact absurd (by simpa using congrArg List.reverse hd)
          (Nat.digits_ne_nil_iff_ne_zero.mpr h0)
      | cons e es => exact ⟨e, es, rfl⟩
    have he : e < 10 :=
      Nat.digits_lt_base (by norm_num) (List.mem_reverse.mp (by rw [hrev]; simp))
    have hp : parseNatChars (digitChar e :: List.map digitChar es) = some n := by
      rw [← List.map_cons, ← hrev]
      exact parseNatChars_digits n h0
    rw [parseKey, natKey_data n h0, hrev, List.map_cons]
    simp [(digitChar_ne_sign e he).1, (digitChar_ne_sign e he).2, hp]

theorem parseKey_neg_natKey (n : Nat) :
    parseKey ("-" ++ natKey n) = some (-(n : Int)) := by
  have hm : ("-" : String).data = [Char.ofNat 45] := by decide
  have hdata : ("-" ++ natKey n).data = Char.ofNat 45 :: (natKey n).data := by
    show ("-" : String).data ++ (natKey n).data = _
    rw [hm]
    rfl
  rw [parseKey, hdata]
  simp [parseNatChars_natKey n]

theorem parseKey_intKey (i : Int) : parseKey (intKey i) = some i := by
  rw [intKey]
  by_cases h : i < 0
  · rw [if_pos h, parseKey_neg_natKey i.natAbs]
    congr 1
    omega
  · rw [if_neg h, parseKey_natKey]
    congr 1
    omega

theorem decCard_encCard (c : Card) : decCard (encCard c) = some c := by
  cases c with
  | mk i t d p du =>
    cases du <;>
      simp [encCard, decCard, decIntField, decStrField, decDueField, getField]

theorem decCards_map_encCard (cs : List Card) : decCards (cs.map encCard) = some cs := by
  induction cs with
  | nil => rfl
  | cons c rest ih => simp [decCards, decCard_encCard, ih]

theorem decKList_encKList (l : KList) : decKList (encKList l) = some l := by
  cases l with
  | mk i t p cs =>
    simp [encKList, decKList, decIntField, decStrField, decCardsField, getField,
      decCards_map_encCard]

theorem decKLists_map_encKList (ls : List KList) : decKLists (ls.map encKList) = some ls := by
  induction ls with
  | nil => rfl
  | cons l rest ih => simp [decKLists, decKList_encKList, ih]

theorem decBoard_encBoard (b : Board) : decBoard (encBoard b) = some b := by
  cases b with
  | mk i t ls e =>
    simp [encBoard, decBoard, decIntField, decStrField, decListsField, getField,
      decKLists_map_encKList]

theorem decBoardEntries_map (bs : Boards) :
    decBoardEntries (bs.map fun p => (intKey p.1, encBoard p.2)) = some bs := by
  induction bs with
  | nil => rfl
  | cons p rest ih =>
    simp [decBoardEntries, parseKey_intKey, decBoard_encBoard, ih]

/-- C7. `save` followed by `load` reproduces a deeply-equal board tree: every
board id, title, event counter, every list id, title, position, card
sequence, and every card id, title, description, position and due timestamp
round-trip through the JSON snapshot (main.go:59-93). -/
theorem save_load_roundtrip (bs : Boards) :
    load (FileState.contents (save bs)) = Except.ok bs := by
  simp [load, save, encBoards, decBoards, decBoardEntries_map]

/-- C8. Startup load (main.go:59-72, 388-391): a missing snapshot file is a
success and leaves the store empty; an unreadable file or a snapshot that
does not decode into the board map is an error and the process fails fatally
instead of running with partial state. -/
theorem startup_load_spec :
    load FileState.absent = Except.ok [] ∧
    startup FileState.absent = some [] ∧
    load FileState.unreadable = Except.error LoadError.ioError ∧
    startup FileState.unreadable = none ∧
    (∀ j, decBoards j = none →
      load (FileState.contents j) = Except.error LoadError.malformed ∧
      startup (FileState.contents j) = none) := by
  refine ⟨rfl, rfl, rfl, rfl, ?_⟩
  intro j hj
  constructor
  · simp [load, hj]
  · simp [startup, load, hj]

/-- C8 witness: a snapshot holding a bare JSON number is malformed, `load`
errors on it and startup refuses to run. -/
theorem startup_load_spec_witness :
    decBoards (Json.num 5) = none ∧
    load (FileState.contents (Json.num 5)) = Except.error LoadError.malformed ∧
    startup (FileState.contents (Json.num 5)) = none := by
  refine ⟨rfl, ?_, ?_⟩
  · exact (startup_load_spec.2.2.2.2 (Json.num 5) rfl).1
  · exact (startup_load_spec.2.2.2.2 (Json.num 5) rfl).2

/-! ## Fan-out lemmas (C9, C10) -/

theorem lookupChan_map (cs : List (Nat × Chan)) (g : Nat → Chan → Chan) (i : Nat) :
    lookupChan (cs.map fun p => (p.1, g p.1 p.2)) i = (lookupChan cs i).map (g i) := by
  induction cs with
  | nil => rfl
  | cons p rest ih =>
    by_cases h : p.1 = i
    · simp [lookupChan, h]
    · simp [lookupChan, h, ih]

theorem lookupChan_append (cs : List (Nat × Chan)) (k : Nat) (c : Chan) (i : Nat) :
    lookupChan (cs ++ [(k, c)]) i =
      match lookupChan cs i with
      | some x => some x
      | none => if k = i then some c else none := by
  induction cs with
  | nil => simp [lookupChan]
  | cons p rest ih => by_cases h : p.1 = i <;> simp [lookupChan, h, ih]

theorem lookupStream_setStream_self (m : List (Int × List Nat)) (i : Int) (v : List Nat) :
    lookupStream (setStream m i v) i = v := by
  induction m with
  | nil => simp [setStream, lookupStream]
  | cons p rest ih => by_cases h : p.1 = i <;> simp [setStream, lookupStream, h, ih]

theorem lookupStream_setStream_ne (m : List (Int × List Nat)) (i b : Int) (v : List Nat)
    (h : b ≠ i) : lookupStream (setStream m i v) b = lookupStream m b := by
  induction m with
  | nil => simp [setStream, lookupStream, Ne.symm h]
  | cons p rest ih =>
    by_cases hk : p.1 = i
    · subst hk
      simp [setStream, lookupStream, Ne.symm h]
    · by_cases hb : p.1 = b <;> simp [setStream, lookupStream, hk, hb, ih, h]

/-- C9. `broadcast` (main.go:96-112) is total and best-effort: it never
alters the registry, a subscriber of the board whose queue has spare room
receives the message at the back of its queue, a subscriber whose queue is
full has exactly that message dropped and its queue left unchanged, and a
channel not subscribed to the board is untouched — so the triggering
mutation is never delayed or failed by any subscriber's queue state. -/
theorem broadcast_best_effort (f : Fanout) (boardID : Int) (m : Notif) (id : Nat) (c : Chan)
    (hc : lookupChan f.chans id = some c) :
    (broadcast f boardID m).streams = f.streams ∧
    (broadcast f boardID m).nextCh = f.nextCh ∧
    (id ∈ lookupStream f.streams boardID → c.buf.length < c.cap →
      lookupChan (broadcast f boardID m).chans id = some { c with buf := c.buf ++ [m] }) ∧
    (id ∈ lookupStream f.streams boardID → c.cap ≤ c.buf.length →
      lookupChan (broadcast f boardID m).chans id = some c) ∧
    (id ∉ lookupStream f.streams boardID →
      lookupChan (broadcast f boardID m).chans id = some c) := by
  refine ⟨rfl, rfl, ?_, ?_, ?_⟩
  · intro hin hlt
    simp only [broadcast]
    rw [lookupChan_map f.chans
      (fun k ch => if k ∈ lookupStream f.streams boardID then chanSend ch m else ch) id, hc]
    simp [hin, chanSend, hlt]
  · intro hin hge
    simp only [broadcast]
    rw [lookupChan_map f.chans
      (fun k ch => if k ∈ lookupStream f.streams boardID then chanSend ch m else ch) id, hc]
    simp [hin, chanSend]
    omega
  · intro hout
    simp only [broadcast]
    rw [lookupChan_map f.chans
      (fun k ch => if k ∈ lookupStream f.streams boardID then chanSend ch m else ch) id, hc]
    simp [hout]

/-- C9 witness: on a concrete registry for board 1, the full queue (16
pending) drops the message and is unchanged, the empty queue receives it. -/
theorem broadcast_best_effort_witness :
    lookupChan (broadcast wFanout 1 wMsg).chans 0 = some wChanFull ∧
    lookupChan (broadcast wFanout 1 wMsg).chans 1 =
      some { wChanEmpty with buf := wChanEmpty.buf ++ [wMsg] } := by
  constructor
  · exact (broadcast_best_effort wFanout 1 wMsg 0 wChanFull (by decide)).2.2.2.1
      (by decide) (by decide)
  · exact (broadcast_best_effort wFanout 1 wMsg 1 wChanEmpty (by decide)).2.2.1
      (by decide) (by decide)

/-- C10. `subscribe` (main.go:114-128) never fails and checks no board
existence: for any board id whatsoever it registers a fresh channel of
capacity 16 with an empty queue and returns it with a cancel handle;
cancelling removes exactly that channel from the board's registry and closes
it, while every other channel stays registered with its state untouched and
other boards' registries are unchanged. -/
theorem subscribe_cancel_spec (f : Fanout) (boardID : Int)
    (hfresh : lookupChan f.chans f.nextCh = none) :
    (subscribe f boardID).2 = f.nextCh ∧
    (subscribe f boardID).2 ∈ lookupStream (subscribe f boardID).1.streams boardID ∧
    lookupChan (subscribe f boardID).1.chans (subscribe f boardID).2 =
      some { cap := 16, buf := [], closed := false } ∧
    (subscribe f boardID).2 ∉
      lookupStream (cancelSub (subscribe f boardID).1 boardID
        (subscribe f boardID).2).streams boardID ∧
    lookupChan (cancelSub (subscribe f boardID).1 boardID
        (subscribe f boardID).2).chans (subscribe f boardID).2 =
      some { cap := 16, buf := [], closed := true } ∧
    (∀ j, j ≠ (subscribe f boardID).2 →
      (j ∈ lookupStream (cancelSub (subscribe f boardID).1 boardID
          (subscribe f boardID).2).streams boardID ↔
        j ∈ lookupStream (subscribe f boardID).1.streams boardID)) ∧
    (∀ j, j ≠ (subscribe f boardID).2 →
      lookupChan (cancelSub (subscribe f boardID).1 boardID
          (subscribe f boardID).2).chans j = lookupChan (subscribe f boardID).1.chans j) ∧
    (∀ i, i ≠ boardID →
      lookupStream (cancelSub (subscribe f boardID).1 boardID
          (subscribe f boardID).2).streams i =
        lookupStream (subscribe f boardID).1.streams i) := by
  have hsub : lookupChan (subscribe f boardID).1.chans f.nextCh =
      some { cap := 16, buf := [], closed := false } := by
    simp only [subscribe]
    rw [lookupChan_append, hfresh]
    simp
  refine ⟨rfl, ?_, hsub, ?_, ?_, ?_, ?_, ?_⟩
  · simp only [subscribe]
    rw [lookupStream_setStream_self]
    simp
  · simp only [subscribe, cancelSub]
    rw [lookupStream_setStream_self]
    simp
  · simp only [cancelSub]
    rw [lookupChan_map (subscribe f boardID).1.chans
      (fun k ch => if k = (subscribe f boardID).2 then { ch with closed := true } else ch) _]
    rw [show (subscribe f boardID).2 = f.nextCh from rfl, hsub]
    simp
  · intro j hj
    simp only [cancelSub]
    rw [lookupStream_setStream_self]
    simp [List.mem_filter, hj]
  · intro j hj
    simp only [cancelSub]
    rw [lookupChan_map (subscribe f boardID).1.chans
      (fun k ch => if k = (subscribe f boardID).2 then { ch with closed := true } else ch) j]
    cases lookupChan (subscribe f boardID).1.chans j <;> simp [hj]
  · intro i hi
    simp only [cancelSub]
    rw [lookupStream_setStream_ne _ _ _ _ hi]

/-- C10 witness: subscribing to the nonexistent board 7 of the sample
fan-out registry succeeds, registers channel 2 with capacity 16, and its
cancel handle removes and closes exactly that channel. -/
theorem subscribe_cancel_spec_witness :
    (subscribe wFanout 7).2 = wFanout.nextCh ∧
    (subscribe wFanout 7).2 ∈ lookupStream (subscribe wFanout 7).1.streams 7 ∧
    lookupChan (subscribe wFanout 7).1.chans (subscribe wFanout 7).2 =
      some { cap := 16, buf := [], closed := false } ∧
    (subscribe wFanout 7).2 ∉
      lookupStream (cancelSub (subscribe wFanout 7).1 7 (subscribe wFanout 7).2).streams 7 ∧
    lookupChan (cancelSub (subscribe wFanout 7).1 7 (subscribe wFanout 7).2).chans
        (subscribe wFanout 7).2 = some { cap := 16, buf := [], closed := true } ∧
    (∀ j, j ≠ (subscribe wFanout 7).2 →
      (j ∈ lookupStream (cancelSub (subscribe wFanout 7).1 7
          (subscribe wFanout 7).2).streams 7 ↔
        j ∈ lookupStream (subscribe wFanout 7).1.streams 7)) ∧
    (∀ j, j ≠ (subscribe wFanout 7).2 →
      lookupChan (cancelSub (subscribe wFanout 7).1 7 (subscribe wFanout 7).2).chans j =
        lookupChan (subscribe wFanout 7).1.chans j) ∧
    (∀ i, i ≠ (7 : Int) →
      lookupStream (cancelSub (subscribe wFanout 7).1 7 (subscribe wFanout 7).2).streams i =
        lookupStream (subscribe wFanout 7).1.streams i) := by
  exact subscribe_cancel_spec wFanout 7 (by decide)

end Kanban
